/-
  Verification of core components of the obsidian-cursor-agent plugin.

  The development shallowly embeds the bridge between the host application
  and the external `cursor-agent` process:
    * the streaming line-delimited protocol decoder (`CursorBridge.handleData`),
    * the bridge orchestration of `send` / `cancel` / approval replies,
    * authentication resolution (`getAuthConfig`, `checkCursorLogin`),
    * command-candidate spawning (`spawnCursorAgentPiped`),
    * the one-shot executor timeout path (`execCursorAgent`),
    * the session ledger pending-message handoff (`onInit` in Chat.tsx).

  JavaScript strings are modelled as `List Char` where character-level
  reasoning is needed, and as `String` elsewhere.  Effectful collaborators
  (JSON.parse, the OS spawn call, the approval-prompt detector) are passed
  in as function parameters, so theorems quantify over their behaviour.
-/
import Mathlib

namespace CursorAgent

/-! ## Protocol Decoder (CursorBridge.handleData)

`handleData` accumulates stdout chunks into `this.buffer`, splits on
newline, keeps the final (possibly incomplete) segment as the new buffer,
skips lines that are blank after trimming, and attempts `JSON.parse` on
every other complete line, dispatching each successfully parsed event. -/

/-- JavaScript `s.split("\n")` on a list of characters: always returns at
least one (possibly empty) segment; segments contain no newline. -/
def splitLines : List Char → List (List Char)
  | [] => [[]]
  | c :: rest =>
    if c = '\n' then [] :: splitLines rest
    else
      match splitLines rest with
      | [] => [[c]]
      | l :: ls => (c :: l) :: ls

/-- The last segment of a split (JavaScript `lines.pop() || ""`). -/
def lastSeg : List (List Char) → List Char
  | [] => []
  | [x] => x
  | _ :: y :: ys => lastSeg (y :: ys)

/-- A line is blank (JS `!line.trim()`) iff all its characters are whitespace. -/
def isBlankLine (l : List Char) : Bool := l.all Char.isWhitespace

/-- The lines the decoder hands to `JSON.parse`: the complete lines that are
not blank, in order. -/
def attemptedLines (lines : List (List Char)) : List (List Char) :=
  lines.filter (fun l => !isBlankLine l)

/-- One step of the decoder: the parse attempts made, the events dispatched
(one per attempted line that `parse` accepts), and the new buffer. -/
structure DecodeStep (E : Type) where
  attempts : List (List Char)
  events : List E
  buffer : List Char
  deriving DecidableEq, Repr

/-- `CursorBridge.handleData`, with `JSON.parse` abstracted as `parse`
(returning `none` where the JavaScript parser would throw). -/
def handleData {E : Type} (parse : List Char → Option E)
    (buffer chunk : List Char) : DecodeStep E :=
  let parts := splitLines (buffer ++ chunk)
  let atts := attemptedLines parts.dropLast
  ⟨atts, atts.filterMap parse, lastSeg parts⟩

/-- Feeding a sequence of chunks one at a time, accumulating attempts and
dispatched events. -/
def processChunks {E : Type} (parse : List Char → Option E)
    (buffer : List Char) : List (List Char) → DecodeStep E
  | [] => ⟨[], [], buffer⟩
  | c :: cs =>
    let s := handleData parse buffer c
    let rest := processChunks parse s.buffer cs
    ⟨s.attempts ++ rest.attempts, s.events ++ rest.events, rest.buffer⟩

theorem splitLines_ne_nil (l : List Char) : splitLines l ≠ [] := by
  cases l with
  | nil => simp [splitLines]
  | cons c rest =>
    simp only [splitLines]
    by_cases h : c = '\n'
    · simp [h]
    · simp only [h, if_false]
      cases splitLines rest <;> simp

theorem mem_splitLines_no_newline (l : List Char) :
    ∀ p ∈ splitLines l, '\n' ∉ p := by
  induction l with
  | nil => intro p hp; simp [splitLines] at hp; simp [hp]
  | cons c rest ih =>
    intro p hp
    simp only [splitLines] at hp
    by_cases h : c = '\n'
    · simp only [h, if_true] at hp
      rcases List.mem_cons.mp hp with h1 | h1
      · simp [h1]
      · exact ih p h1
    · simp only [h, if_false] at hp
      rcases hl : splitLines rest with _ | ⟨x, xs⟩
      · exact absurd hl (splitLines_ne_nil rest)
      · rw [hl] at hp
        rcases List.mem_cons.mp hp with h1 | h1
        · subst h1
          intro hmem
          rcases List.mem_cons.mp hmem with h2 | h2
          · exact h h2.symm
          · exact ih x (by rw [hl]; exact List.mem_cons_self x xs) h2
        · exact ih p (by rw [hl]; exact List.mem_cons_of_mem x h1)

theorem splitLines_no_newline (l : List Char) (h : '\n' ∉ l) :
    splitLines l = [l] := by
  induction l with
  | nil => rfl
  | cons c rest ih =>
    have hc : c ≠ '\n' := fun hc => h (hc ▸ List.mem_cons_self c rest)
    have hrest : '\n' ∉ rest := fun hm => h (List.mem_cons_of_mem c hm)
    simp only [splitLines, hc, if_false, ih hrest]

theorem lastSeg_no_newline (l : List Char) : '\n' ∉ lastSeg (splitLines l) := by
  have h := mem_splitLines_no_newline l
  have : ∀ (ps : List (List Char)), (∀ p ∈ ps, '\n' ∉ p) → '\n' ∉ lastSeg ps := by
    intro ps
    induction ps with
    | nil => intro _; simp [lastSeg]
    | cons x xs ih =>
      intro hall
      cases xs with
      | nil => simpa [lastSeg] using hall x (List.mem_cons_self x [])
      | cons y ys =>
        exact ih (fun p hp => hall p (List.mem_cons_of_mem x hp))
  exact this (splitLines l) h

/-- Splitting a concatenation: the leading complete segments of `a` survive,
and the trailing segment of `a` fuses with the start of `b`. -/
theorem splitLines_append (a b : List Char) :
    splitLines (a ++ b) =
      (splitLines a).dropLast ++ splitLines (lastSeg (splitLines a) ++ b) := by
  induction a with
  | nil => simp [splitLines, lastSeg]
  | cons c rest ih =>
    rcases hr : splitLines rest with _ | ⟨x, xs⟩
    · exact absurd hr (splitLines_ne_nil rest)
    rw [hr] at ih
    have e1 : (c :: rest) ++ b = c :: (rest ++ b) := rfl
    by_cases h : c = '\n'
    · subst h
      rw [e1]
      simp only [splitLines, if_pos rfl, hr]
      rw [ih]
      cases xs with
      | nil => simp [lastSeg, List.dropLast]
      | cons x2 xs2 => simp [lastSeg, List.dropLast]
    · rw [e1]
      cases xs with
      | nil =>
        have ih2 : splitLines (rest ++ b) = splitLines (x ++ b) := by
          simpa [lastSeg, List.dropLast] using ih
        have e2 : (c :: x) ++ b = c :: (x ++ b) := rfl
        simp only [splitLines, h, if_false, hr, ih2, lastSeg, List.dropLast,
          List.nil_append, e2]
      | cons x2 xs2 =>
        have e2 :
            splitLines (rest ++ b) =
              x :: ((x2 :: xs2).dropLast ++ splitLines (lastSeg (x2 :: xs2) ++ b)) := by
          simpa [lastSeg, List.dropLast] using ih
        simp only [splitLines, h, if_false, hr, e2, lastSeg, List.dropLast,
          List.cons_append]

theorem lastSeg_append_of_ne_nil (A Q : List (List Char)) (hQ : Q ≠ []) :
    lastSeg (A ++ Q) = lastSeg Q := by
  induction A with
  | nil => rfl
  | cons a A' ih =>
    rcases hAQ : A' ++ Q with _ | ⟨y, ys⟩
    · exact absurd (List.append_eq_nil.mp hAQ).2 hQ
    · have : lastSeg (a :: A' ++ Q) = lastSeg (A' ++ Q) := by
        rw [List.cons_append, hAQ]; rfl
      rw [this, ih]

theorem lastSeg_append_singleton (A : List (List Char)) (p : List Char) :
    lastSeg (A ++ [p]) = p :=
  lastSeg_append_of_ne_nil A [p] (by simp)

theorem dropLast_append_of_ne_nil (A Q : List (List Char)) (hQ : Q ≠ []) :
    (A ++ Q).dropLast = A ++ Q.dropLast := by
  induction A with
  | nil => rfl
  | cons a A' ih =>
    rcases hAQ : A' ++ Q with _ | ⟨y, ys⟩
    · exact absurd (List.append_eq_nil.mp hAQ).2 hQ
    · have : (a :: A' ++ Q).dropLast = a :: (A' ++ Q).dropLast := by
        rw [List.cons_append, hAQ]; rfl
      rw [this, ih, List.cons_append]

/-- Feeding one chunk split in two is the same as feeding it whole:
attempts and events concatenate and the final buffer agrees. -/
theorem handleData_append {E : Type} (parse : List Char → Option E)
    (buf c1 c2 : List Char) :
    handleData parse buf (c1 ++ c2) =
      ⟨(handleData parse buf c1).attempts ++
          (handleData parse (handleData parse buf c1).buffer c2).attempts,
        (handleData parse buf c1).events ++
          (handleData parse (handleData parse buf c1).buffer c2).events,
        (handleData parse (handleData parse buf c1).buffer c2).buffer⟩ := by
  simp only [handleData]
  have e1 : buf ++ (c1 ++ c2) = (buf ++ c1) ++ c2 := by rw [List.append_assoc]
  rw [e1, splitLines_append (buf ++ c1) c2]
  have hQ := splitLines_ne_nil (lastSeg (splitLines (buf ++ c1)) ++ c2)
  rw [dropLast_append_of_ne_nil _ _ hQ, lastSeg_append_of_ne_nil _ _ hQ]
  simp [attemptedLines, List.filter_append, List.filterMap_append]

/-- Processing chunks one at a time equals processing their concatenation,
provided the starting buffer holds no newline (true of every reachable
buffer: `send` resets it to `""` and `handleData` keeps only the final
newline-free segment). -/
theorem processChunks_join {E : Type} (parse : List Char → Option E)
    (buf : List Char) (hbuf : '\n' ∉ buf) (cs : List (List Char)) :
    processChunks parse buf cs = handleData parse buf cs.flatten := by
  induction cs generalizing buf with
  | nil =>
    simp only [processChunks, List.flatten, handleData]
    rw [List.append_nil, splitLines_no_newline buf hbuf]
    rfl
  | cons c cs ih =>
    simp only [processChunks, List.flatten]
    rw [ih (handleData parse buf c).buffer
      (by simpa [handleData] using lastSeg_no_newline (buf ++ c))]
    rw [handleData_append parse buf c cs.flatten]

/-- Reassembling: if the concatenated input is `L` newline-terminated lines
followed by a newline-free tail `p`, the split recovers `L ++ [p]`. -/
theorem splitLines_of_lines (L : List (List Char)) (p : List Char)
    (hL : ∀ l ∈ L, '\n' ∉ l) (hp : '\n' ∉ p) :
    splitLines ((L.map (fun l => l ++ ['\n'])).flatten ++ p) = L ++ [p] := by
  induction L with
  | nil => simp [splitLines_no_newline p hp]
  | cons l L' ih =>
    have hl : '\n' ∉ l := hL l (List.mem_cons_self l L')
    have hL' : ∀ x ∈ L', '\n' ∉ x := fun x hx => hL x (List.mem_cons_of_mem l hx)
    have key : ∀ (m : List Char), '\n' ∉ m → ∀ (r : List Char),
        splitLines (m ++ '\n' :: r) = m :: splitLines r := by
      intro m hm
      induction m with
      | nil => intro r; simp [splitLines]
      | cons d m' ihm =>
        intro r
        have hd : d ≠ '\n' := fun hd => hm (hd ▸ List.mem_cons_self d m')
        have hm' : '\n' ∉ m' := fun hx => hm (List.mem_cons_of_mem d hx)
        have e : (d :: m') ++ '\n' :: r = d :: (m' ++ '\n' :: r) := rfl
        rw [e]
        simp only [splitLines, hd, if_false, ihm hm' r]
    have e : ((l :: L').map (fun x => x ++ ['\n'])).flatten ++ p
        = l ++ '\n' :: ((L'.map (fun x => x ++ ['\n'])).flatten ++ p) := by
      simp [List.flatten]
    rw [e, key l hl, ih hL', List.cons_append]

/-- C1: for every sequence of stdout chunks whose concatenation is `N`
newline-terminated lines `L` followed by a newline-free partial tail `p`,
`CursorBridge.handleData` (fed chunk by chunk from the fresh empty buffer)
attempts to parse exactly the non-blank complete lines, once each, in
order; dispatches one event per attempted line the parser accepts (blank
and unparseable lines are dropped without affecting later lines); and
retains `p` as the new buffer. -/
theorem decoder_chunked_stream_correct {E : Type} (parse : List Char → Option E)
    (cs L : List (List Char)) (p : List Char)
    (hL : ∀ l ∈ L, '\n' ∉ l) (hp : '\n' ∉ p)
    (hcs : cs.flatten = (L.map (fun l => l ++ ['\n'])).flatten ++ p) :
    processChunks parse [] cs =
      ⟨attemptedLines L, (attemptedLines L).filterMap parse, p⟩ := by
  rw [processChunks_join parse [] (by simp) cs, hcs]
  simp only [handleData, List.nil_append]
  rw [splitLines_of_lines L p hL hp, lastSeg_append_singleton,
    List.dropLast_concat]

/-- A concrete JSON-parse stand-in for the decoder witness: accepts only the
line `ok`. -/
def sampleParse (l : List Char) : Option Nat :=
  if l = ['o', 'k'] then some 7 else none

/-- Witness for C1 at a concrete chunking: `"ok\nbad\n \nok\nta"` delivered
as three chunks splitting lines mid-way. -/
theorem decoder_chunked_stream_correct_witness :
    ((∀ l ∈ [['o', 'k'], ['b', 'a', 'd'], [' '], ['o', 'k']], '\n' ∉ l) ∧
      '\n' ∉ ['t', 'a'] ∧
      List.flatten [['o', 'k', '\n', 'b'], ['a', 'd', '\n', ' ', '\n'], ['o', 'k', '\n', 't', 'a']] =
        (List.map (fun l => l ++ ['\n'])
          [['o', 'k'], ['b', 'a', 'd'], [' '], ['o', 'k']]).flatten ++ ['t', 'a']) ∧
    processChunks sampleParse []
        [['o', 'k', '\n', 'b'], ['a', 'd', '\n', ' ', '\n'], ['o', 'k', '\n', 't', 'a']] =
      ⟨attemptedLines [['o', 'k'], ['b', 'a', 'd'], [' '], ['o', 'k']],
        (attemptedLines [['o', 'k'], ['b', 'a', 'd'], [' '], ['o', 'k']]).filterMap sampleParse,
        ['t', 'a']⟩ :=
  ⟨⟨by decide, by decide, by decide⟩,
    decoder_chunked_stream_correct sampleParse _ _ _ (by decide) (by decide) (by decide)⟩

/-! ## Auth Resolver (src/cursor/auth.ts)

`getAuthConfig` checks, in order: the `CURSOR_API_KEY` environment
credential, the CLI login probe (`checkCursorLogin`, which runs
`cursor-agent status` through the One-Shot Executor), and the configured
API key.  `checkCursorLogin` is modelled as a pure classifier of the
probe's exec result; whether the probe was invoked is returned as a
separate flag. -/

/-- JavaScript `s.trim()` on a list of characters. -/
def trimChars (l : List Char) : List Char :=
  ((l.dropWhile Char.isWhitespace).reverse.dropWhile Char.isWhitespace).reverse

/-- JavaScript `s.trim()`. -/
def jsTrim (s : String) : String := ⟨trimChars s.data⟩

/-- JavaScript `s.toLowerCase()` (ASCII-faithful). -/
def jsToLower (s : String) : String := ⟨s.data.map Char.toLower⟩

/-- JavaScript `haystack.includes(needle)`. -/
def substrIn (needle hay : String) : Bool :=
  hay.data.tails.any (fun t => needle.data.isPrefixOf t)

/-- Plugin settings consumed by the bridge (src/types, `CursorAgentSettings`). -/
structure CursorAgentSettings where
  apiKey : String
  cursorAgentPath : String
  showToolCalls : Bool
  permissionMode : String
  customInstructions : String
  workingDirectory : String
  defaultModel : String
  deriving DecidableEq, Repr

/-- Result of `execCursorAgent` (src/cursor/cli.ts, `CursorAgentExecResult`). -/
structure CursorAgentExecResult where
  code : Option Int
  signal : Option String
  stdout : String
  stderr : String
  deriving DecidableEq, Repr

/-- `checkCursorLogin` (auth.ts lines 73-93) as a classifier of the probe's
exec result: a non-zero (or null) exit code is reported not-logged-in
before any text is examined; otherwise the lowercased combined output is
scanned for "not logged", then "logged in", then "authenticated", and an
unmarked zero-exit output is optimistically treated as logged in. -/
def checkCursorLogin (res : CursorAgentExecResult) : Bool :=
  if res.code ≠ some 0 then false
  else
    let out := jsToLower (res.stdout ++ "\n" ++ res.stderr)
    if substrIn "not logged" out then false
    else if substrIn "logged in" out then true
    else if substrIn "authenticated" out then true
    else true

inductive AuthSource where
  | login
  | apiKey
  | env
  | none
  deriving DecidableEq, Repr

/-- `AuthResult` (auth.ts lines 4-8). -/
structure AuthResult where
  isAuthenticated : Bool
  source : AuthSource
  args : List String
  deriving DecidableEq, Repr

/-- `getAuthConfig` (auth.ts lines 14-52).  `envCursorApiKey` is
`process.env.CURSOR_API_KEY`; `probeRes` is the exec result the login
probe would produce if invoked.  The second component records whether the
probe was invoked. -/
def getAuthConfig (envCursorApiKey : Option String)
    (settings : CursorAgentSettings) (probeRes : CursorAgentExecResult) :
    AuthResult × Bool :=
  let envApiKey := (envCursorApiKey.map jsTrim).getD ""
  if envApiKey ≠ "" then (⟨true, .env, []⟩, false)
  else
    let isLoggedIn := checkCursorLogin probeRes
    if isLoggedIn then (⟨true, .login, []⟩, true)
    else if jsTrim settings.apiKey ≠ "" then
      (⟨true, .apiKey, ["--api-key", settings.apiKey]⟩, true)
    else (⟨false, .none, []⟩, true)

/-- C6: auth precedence.  (1) A non-empty (after trimming) environment
credential yields the environment source with no extra args and the login
probe is not invoked (and the result is independent of the configured API
key, which the statement quantifies over).  (2) With no environment
credential and a negative probe, the API-key path is taken iff the
configured key is non-empty after trimming.  (3) Otherwise the result is
unauthenticated. -/
theorem auth_resolution_precedence (envKey : Option String)
    (settings : CursorAgentSettings) (probeRes : CursorAgentExecResult) :
    (((envKey.map jsTrim).getD "") ≠ "" →
      getAuthConfig envKey settings probeRes =
        (⟨true, AuthSource.env, []⟩, false)) ∧
    (((envKey.map jsTrim).getD "") = "" →
      checkCursorLogin probeRes = false →
      (((getAuthConfig envKey settings probeRes).1.source = AuthSource.apiKey ∧
          (getAuthConfig envKey settings probeRes).1.isAuthenticated = true) ↔
        jsTrim settings.apiKey ≠ "")) ∧
    (((envKey.map jsTrim).getD "") = "" →
      checkCursorLogin probeRes = false →
      jsTrim settings.apiKey = "" →
      getAuthConfig envKey settings probeRes =
        (⟨false, AuthSource.none, []⟩, true)) := by
  refine ⟨fun he => ?_, fun he hp => ?_, fun he hp hk => ?_⟩
  · simp [getAuthConfig, he]
  · by_cases hk : jsTrim settings.apiKey = ""
    · simp [getAuthConfig, he, hp, hk]
    · simp [getAuthConfig, he, hp, hk]
  · simp [getAuthConfig, he, hp, hk]

/-- Sample settings with no API key configured. -/
def sampleSettings : CursorAgentSettings :=
  ⟨"", "", true, "default", "", "/vault", ""⟩

/-- Sample settings with an API key configured. -/
def sampleSettingsWithKey : CursorAgentSettings :=
  { sampleSettings with apiKey := "sk-abc" }

/-- A failing login probe result. -/
def sampleProbeFail : CursorAgentExecResult :=
  ⟨some 1, Option.none, "", "not logged in"⟩

/-- Witness for C6 at concrete inputs covering all three branches. -/
theorem auth_resolution_precedence_witness :
    getAuthConfig (some " k ") sampleSettingsWithKey sampleProbeFail =
        (⟨true, AuthSource.env, []⟩, false) ∧
    ((getAuthConfig Option.none sampleSettingsWithKey sampleProbeFail).1.source =
          AuthSource.apiKey ∧
        (getAuthConfig Option.none sampleSettingsWithKey sampleProbeFail).1.isAuthenticated =
          true) ∧
    getAuthConfig Option.none sampleSettings sampleProbeFail =
        (⟨false, AuthSource.none, []⟩, true) :=
  ⟨(auth_resolution_precedence (some " k ") sampleSettingsWithKey sampleProbeFail).1
      (by decide),
    ((auth_resolution_precedence Option.none sampleSettingsWithKey sampleProbeFail).2.1
        (by decide) (by decide)).mpr (by decide),
    (auth_resolution_precedence Option.none sampleSettings sampleProbeFail).2.2
      (by decide) (by decide) (by decide)⟩

/-- C7 counterexample: the claim classifies every probe result by its text
first ("contains 'logged in' → logged in"), but `checkCursorLogin` returns
false for any non-zero exit code before looking at the text.  At exit code
1 with stdout "logged in" (which does contain the marker and not
"not logged"), the code reports not logged in. -/
theorem login_probe_text_first_counterexample :
    checkCursorLogin ⟨some 1, Option.none, "logged in", ""⟩ = false ∧
    substrIn "logged in"
        (jsToLower (("logged in" : String) ++ "\n" ++ "")) = true ∧
    substrIn "not logged"
        (jsToLower (("logged in" : String) ++ "\n" ++ "")) = false := by
  refine ⟨by decide, by decide, by decide⟩

/-- C7 amended: the probe first requires a zero exit code — any other exit
code is reported not logged in regardless of the output text; for a zero
exit code the combined lowercased stdout+stderr is classified: containing
"not logged" means not logged in, otherwise (whether or not "logged in" or
"authenticated" occurs) the result is logged in, the unmarked case
optimistically. -/
theorem login_probe_classification (res : CursorAgentExecResult) :
    checkCursorLogin res = true ↔
      (res.code = some 0 ∧
        substrIn "not logged" (jsToLower (res.stdout ++ "\n" ++ res.stderr)) = false) := by
  by_cases h0 : res.code = some 0
  · by_cases h1 :
        substrIn "not logged" (jsToLower (res.stdout ++ "\n" ++ res.stderr)) = true
    · simp [checkCursorLogin, h0, h1]
    · by_cases h2 :
          substrIn "logged in" (jsToLower (res.stdout ++ "\n" ++ res.stderr)) = true
      · simp [checkCursorLogin, h0, h1, h2]
      · by_cases h3 :
            substrIn "authenticated" (jsToLower (res.stdout ++ "\n" ++ res.stderr)) = true
        · simp [checkCursorLogin, h0, h1, h2, h3]
        · simp [checkCursorLogin, h0, h1, h2, h3]
  · simp [checkCursorLogin, h0]

/-! ## Command Resolver and Process Runner (src/cursor/cli.ts)

`spawnCursorAgentPiped` walks the candidate list from
`getCursorAgentCommandCandidates`, retrying on ENOENT and rethrowing any
other spawn error; process handles are modelled as `Nat`, `spawnOnce` as a
function parameter. -/

/-- A JavaScript `Error` as produced by Node's spawn path: a message plus
an optional `errno`-style code. -/
structure JsError where
  message : String
  code : Option String
  deriving DecidableEq, Repr

/-- `getCursorAgentCommandCandidates` (cli.ts lines 67-83). -/
def getCursorAgentCommandCandidates (platform : String)
    (settings : CursorAgentSettings) : List String :=
  let configured := jsTrim settings.cursorAgentPath
  if configured ≠ "" then [configured]
  else if platform = "win32" then
    ["cursor-agent.cmd", "cursor-agent.exe", "cursor-agent.bat", "cursor-agent"]
  else ["cursor-agent"]

/-- The generic failure message thrown when the candidate loop ends with no
recorded error (cli.ts lines 134-136).  Note it names no candidates. -/
def unableToSpawnMsg : String :=
  "Unable to spawn cursor-agent. Configure an absolute path in settings or add it to PATH."

/-- The loop of `spawnCursorAgentPiped` (cli.ts lines 118-137): `spawnF`
models `spawnOnce`; the second component lists the candidates attempted,
in order.  `lastErr` mirrors the local variable: after the loop the last
recorded error is rethrown, and only with none recorded (empty candidate
list) is the generic `unableToSpawnMsg` error thrown. -/
def spawnLoop (spawnF : String → Except JsError Nat) :
    List String → Option JsError → Except JsError Nat × List String
  | [], lastErr =>
    (match lastErr with
      | some e => .error e
      | Option.none => .error ⟨unableToSpawnMsg, Option.none⟩,
      [])
  | cmd :: rest, _ =>
    match spawnF cmd with
    | .ok h => (.ok h, [cmd])
    | .error e =>
      if e.code = some "ENOENT" then
        let r := spawnLoop spawnF rest (some e)
        (r.1, cmd :: r.2)
      else (.error e, [cmd])

/-- `spawnCursorAgentPiped` (cli.ts lines 118-137). -/
def spawnCursorAgentPiped (spawnF : String → Except JsError Nat)
    (platform : String) (settings : CursorAgentSettings) :
    Except JsError Nat × List String :=
  spawnLoop spawnF (getCursorAgentCommandCandidates platform settings) Option.none

/-- Whether a spawn attempt failed with the executable-missing code. -/
def isEnoent (r : Except JsError Nat) : Bool :=
  match r with
  | .error e => decide (e.code = some "ENOENT")
  | .ok _ => false

/-- The last candidate of a list (the one whose error is rethrown when all
candidates are missing). -/
def lastCandidate : List String → String
  | [] => ""
  | [c] => c
  | _ :: c2 :: rest => lastCandidate (c2 :: rest)

/-- C8 counterexample: with every candidate missing (spawn failing with a
bare "ENOENT" error), the claim requires a "not runnable" error naming the
searched candidates, but the loop rethrows the last candidate's ENOENT
error unchanged: its message names no candidate and is not the generic
fallback message. -/
theorem spawn_all_missing_counterexample :
    spawnCursorAgentPiped (fun _ => .error ⟨"ENOENT", some "ENOENT"⟩)
        "win32" sampleSettings =
      (.error ⟨"ENOENT", some "ENOENT"⟩,
        ["cursor-agent.cmd", "cursor-agent.exe", "cursor-agent.bat", "cursor-agent"]) ∧
    substrIn "cursor-agent" "ENOENT" = false ∧
    "ENOENT" ≠ unableToSpawnMsg :=
  ⟨rfl, by decide, by decide⟩

/-- C8 amended: candidates are tried in order; the loop advances exactly on
an ENOENT spawn failure; any other failure is returned immediately; the
first candidate that spawns is returned with no further attempts; and when
every candidate is missing the loop rethrows the LAST candidate's own
ENOENT error (the generic "Unable to spawn" error, which names no
candidates, would be thrown only for an empty candidate list). -/
theorem spawn_candidate_iteration (spawnF : String → Except JsError Nat) :
    (∀ (pre post : List String) (cmd : String) (h : Nat),
      (∀ c ∈ pre, isEnoent (spawnF c) = true) →
      spawnF cmd = .ok h →
      ∀ lastErr, spawnLoop spawnF (pre ++ cmd :: post) lastErr =
        (.ok h, pre ++ [cmd])) ∧
    (∀ (pre post : List String) (cmd : String) (e : JsError),
      (∀ c ∈ pre, isEnoent (spawnF c) = true) →
      spawnF cmd = .error e → e.code ≠ some "ENOENT" →
      ∀ lastErr, spawnLoop spawnF (pre ++ cmd :: post) lastErr =
        (.error e, pre ++ [cmd])) ∧
    (∀ (cands : List String) (elast : JsError),
      cands ≠ [] →
      (∀ c ∈ cands, isEnoent (spawnF c) = true) →
      spawnF (lastCandidate cands) = .error elast →
      ∀ lastErr, spawnLoop spawnF cands lastErr = (.error elast, cands)) := by
  refine ⟨?_, ?_, ?_⟩
  · intro pre post cmd h hpre hok
    induction pre with
    | nil =>
      intro lastErr
      simp only [List.nil_append, spawnLoop, hok]
    | cons c pre' ih =>
      intro lastErr
      have hc := hpre c (List.mem_cons_self c pre')
      rcases hsc : spawnF c with e | v
      · have hcode : e.code = some "ENOENT" := by
          rw [hsc] at hc
          simpa [isEnoent] using hc
        have hrec := ih (fun x hx => hpre x (List.mem_cons_of_mem c hx)) (some e)
        have step : spawnLoop spawnF (c :: (pre' ++ cmd :: post)) lastErr =
            ((spawnLoop spawnF (pre' ++ cmd :: post) (some e)).1,
              c :: (spawnLoop spawnF (pre' ++ cmd :: post) (some e)).2) := by
          conv_lhs => rw [spawnLoop]
          simp [hsc, hcode]
        rw [List.cons_append, step, hrec]
        simp
      · rw [hsc] at hc
        simp [isEnoent] at hc
  · intro pre post cmd e hpre herr hne
    induction pre with
    | nil =>
      intro lastErr
      simp only [List.nil_append, spawnLoop, herr, hne, if_neg, if_false]
    | cons c pre' ih =>
      intro lastErr
      have hc := hpre c (List.mem_cons_self c pre')
      rcases hsc : spawnF c with e' | v
      · have hcode : e'.code = some "ENOENT" := by
          rw [hsc] at hc
          simpa [isEnoent] using hc
        have hrec := ih (fun x hx => hpre x (List.mem_cons_of_mem c hx)) (some e')
        have step : spawnLoop spawnF (c :: (pre' ++ cmd :: post)) lastErr =
            ((spawnLoop spawnF (pre' ++ cmd :: post) (some e')).1,
              c :: (spawnLoop spawnF (pre' ++ cmd :: post) (some e')).2) := by
          conv_lhs => rw [spawnLoop]
          simp [hsc, hcode]
        rw [List.cons_append, step, hrec]
        simp
      · rw [hsc] at hc
        simp [isEnoent] at hc
  · intro cands
    induction cands with
    | nil => intro elast hne; exact absurd rfl hne
    | cons c rest ih =>
      intro elast _ hall hlast lastErr
      have hc := hall c (List.mem_cons_self c rest)
      rcases hsc : spawnF c with e' | v
      · have hcode : e'.code = some "ENOENT" := by
          rw [hsc] at hc
          simpa [isEnoent] using hc
        cases rest with
        | nil =>
          have hlc : spawnF c = Except.error elast := hlast
          have he : e' = elast := by
            rw [hsc] at hlc
            injection hlc
          subst he
          simp [spawnLoop, hsc, hcode]
        | cons c2 rest2 =>
          have hlast2 : spawnF (lastCandidate (c2 :: rest2)) = .error elast := hlast
          have hall2 : ∀ x ∈ c2 :: rest2, isEnoent (spawnF x) = true :=
            fun x hx => hall x (List.mem_cons_of_mem c hx)
          have hrec := ih elast (by simp) hall2 hlast2 (some e')
          have step : spawnLoop spawnF (c :: c2 :: rest2) lastErr =
              ((spawnLoop spawnF (c2 :: rest2) (some e')).1,
                c :: (spawnLoop spawnF (c2 :: rest2) (some e')).2) := by
            conv_lhs => rw [spawnLoop]
            simp [hsc, hcode]
          rw [step, hrec]
      · rw [hsc] at hc
        simp [isEnoent] at hc

/-- A concrete `spawnOnce` for the C8 witness, realizing the Windows
example from the design: the first three candidates are missing and the
bare name spawns. -/
def sampleSpawnF : String → Except JsError Nat := fun c =>
  if c = "cursor-agent" then .ok 42
  else .error ⟨"spawn " ++ c ++ " ENOENT", some "ENOENT"⟩

/-- Witness for C8 on the Windows candidate list: three ENOENT failures
then a successful spawn of the bare name, never trying further; plus the
all-missing case on a two-candidate list rethrowing the last error. -/
theorem spawn_candidate_iteration_witness :
    spawnLoop sampleSpawnF
        (["cursor-agent.cmd", "cursor-agent.exe", "cursor-agent.bat"] ++
          "cursor-agent" :: []) Option.none =
      (.ok 42, ["cursor-agent.cmd", "cursor-agent.exe", "cursor-agent.bat"] ++
        ["cursor-agent"]) ∧
    spawnLoop sampleSpawnF ["a", "b"] Option.none =
      (.error ⟨"spawn b ENOENT", some "ENOENT"⟩, ["a", "b"]) :=
  ⟨(spawn_candidate_iteration sampleSpawnF).1
      ["cursor-agent.cmd", "cursor-agent.exe", "cursor-agent.bat"] [] "cursor-agent" 42
      (by decide) rfl Option.none,
    (spawn_candidate_iteration sampleSpawnF).2.2 ["a", "b"]
      ⟨"spawn b ENOENT", some "ENOENT"⟩ (by decide) (by decide) rfl Option.none⟩

/-! ## One-Shot Executor timeout path (execCursorAgent, cli.ts 139-190)

The settle race between the timeout timer and the process close event is
modelled with logical time: `closeEvent` optionally carries the close
time, exit code and signal; captured output at settle time is passed in.
`proc.kill()` failures are swallowed by the code (try/catch), so the model
is total: the call never throws. -/

/-- The synthetic stderr text used when the timeout fires with no stderr
captured. -/
def timedOutMsg (timeoutMs : Nat) : String :=
  "Timed out after " ++ toString timeoutMs ++ "ms"

/-- Outcome of one `execCursorAgent` call: the resolved result, the
logical time at which it settled, and whether the process was killed. -/
structure ExecOutcome where
  result : CursorAgentExecResult
  settledAtMs : Nat
  killSent : Bool
  deriving DecidableEq, Repr

/-- The settle logic of `execCursorAgent` (cli.ts lines 161-189): whichever
of the close event and the timeout timer fires first resolves the promise;
the later one is ignored (`settled` flag).  On timeout the process is
killed and the result carries a null exit code, a synthetic "SIGTERM"
signal, the captured stdout, and the captured stderr unless it is empty,
in which case the synthetic timeout message is substituted. -/
def execSettle (timeoutMs : Nat)
    (closeEvent : Option (Nat × Option Int × Option String))
    (stdout stderr : String) : ExecOutcome :=
  let timeoutOutcome : ExecOutcome :=
    ⟨⟨Option.none, some "SIGTERM", stdout,
        if stderr = "" then timedOutMsg timeoutMs else stderr⟩,
      timeoutMs, true⟩
  match closeEvent with
  | Option.none => timeoutOutcome
  | some (t, code, sig) =>
    if t < timeoutMs then ⟨⟨code, sig, stdout, stderr⟩, t, false⟩
    else timeoutOutcome

/-- Whether the process close event fires strictly before the deadline. -/
def closesWithinDeadline (timeoutMs : Nat)
    (closeEvent : Option (Nat × Option Int × Option String)) : Bool :=
  match closeEvent with
  | Option.none => false
  | some (t, _, _) => decide (t < timeoutMs)

/-- C9 counterexample: the claim promises "whatever stdout/stderr output
was captured so far", but when no stderr was captured the timeout result
substitutes a synthetic message for the (empty) captured stderr. -/
theorem exec_timeout_stderr_counterexample :
    (execSettle 10000 Option.none "partial out" "").result.stderr =
        "Timed out after 10000ms" ∧
    ("Timed out after 10000ms" : String) ≠ "" ∧
    (execSettle 10000 Option.none "partial out" "").result.stdout = "partial out" :=
  ⟨by decide, by decide, by decide⟩

/-- C9 amended: a call whose process does not close before the deadline
settles exactly at the deadline (never later, and without throwing — the
model is total and `proc.kill` errors are swallowed), with a kill sent to
the process, a null exit code, the synthetic "SIGTERM" signal, the
captured stdout, and the captured stderr except that an empty captured
stderr is replaced by the synthetic "Timed out after Nms" message. -/
theorem exec_timeout_path (timeoutMs : Nat)
    (closeEvent : Option (Nat × Option Int × Option String))
    (stdout stderr : String)
    (h : closesWithinDeadline timeoutMs closeEvent = false) :
    execSettle timeoutMs closeEvent stdout stderr =
      ⟨⟨Option.none, some "SIGTERM", stdout,
          if stderr = "" then timedOutMsg timeoutMs else stderr⟩,
        timeoutMs, true⟩ := by
  match hc : closeEvent with
  | Option.none => simp [execSettle]
  | some (t, code, sig) =>
    have ht : ¬(t < timeoutMs) := by simpa [closesWithinDeadline] using h
    simp [execSettle, ht]

/-- Witness for C9: no close event, 500ms deadline, captured stdout only. -/
theorem exec_timeout_path_witness :
    closesWithinDeadline 500 Option.none = false ∧
    execSettle 500 Option.none "hello" "" =
      ⟨⟨Option.none, some "SIGTERM", "hello",
          if ("" : String) = "" then timedOutMsg 500 else ""⟩,
        500, true⟩ :=
  ⟨by decide, exec_timeout_path 500 Option.none "hello" "" (by decide)⟩

/-! ## Bridge state and the MCP approval sub-protocol (CursorBridge)

The bridge's mutable fields are collected in `BridgeState`; the process
handle is a `Nat`, the process's stdin is modelled as the list of
characters written so far.  `tryParseMcpApprovalPrompt` is passed in as a
function parameter, so the latch theorems hold for every detector. -/

/-- `McpServerInfo` (src/types). -/
structure McpServerInfo where
  name : String
  url : Option String
  deriving DecidableEq, Repr

/-- `McpServerApprovalRequest` (src/types). -/
structure McpServerApprovalRequest where
  servers : List McpServerInfo
  rawText : String
  deriving DecidableEq, Repr

/-- `McpServerApprovalChoice` (src/types). -/
inductive McpServerApprovalChoice where
  | approveAll
  | continueWithoutApproval
  | quit
  deriving DecidableEq, Repr

/-- Events emitted by the bridge that the modelled operations can produce. -/
inductive BridgeEmit where
  | error (message : String)
  | ready
  | mcpApprovalRequired (req : McpServerApprovalRequest)
  | close (code : Option Int)
  deriving DecidableEq, Repr

/-- The bridge's private mutable fields (part_002 lines 35-40), plus the
characters written to the live process's stdin. -/
structure BridgeState where
  process : Option Nat
  buffer : List Char
  sessionId : Option String
  mcpProbe : List Char
  mcpApprovalPending : Bool
  mcpApprovalEmitted : Bool
  stdinWrites : List Char
  deriving DecidableEq, Repr

/-- `CursorBridge.ingestMcpProbe` (part_002 lines 216-229): once the latch
`mcpApprovalEmitted` is set, scanning stops entirely; otherwise the chunk
is appended to the rolling probe buffer (bounded to its last 50000
characters) and the detector `tryParse` is run; a detection latches both
flags and emits the request. -/
def ingestMcpProbe (tryParse : List Char → Option McpServerApprovalRequest)
    (text : List Char) (st : BridgeState) : BridgeState × List BridgeEmit :=
  if st.mcpApprovalEmitted then (st, [])
  else
    let probe0 := st.mcpProbe ++ text
    let probe :=
      if probe0.length > 50000 then probe0.drop (probe0.length - 50000) else probe0
    match tryParse probe with
    | Option.none => ({ st with mcpProbe := probe }, [])
    | some req =>
      ({ st with
          mcpProbe := probe
          mcpApprovalEmitted := true
          mcpApprovalPending := true },
        [.mcpApprovalRequired req])

/-- A sequence of diagnostic chunks fed to `ingestMcpProbe`, accumulating
emissions. -/
def ingestAll (tryParse : List Char → Option McpServerApprovalRequest)
    (texts : List (List Char)) (st : BridgeState) : BridgeState × List BridgeEmit :=
  match texts with
  | [] => (st, [])
  | t :: ts =>
    let r := ingestMcpProbe tryParse t st
    let rest := ingestAll tryParse ts r.1
    (rest.1, r.2 ++ rest.2)

/-- The single keystroke written for each approval choice. -/
def approvalKey (choice : McpServerApprovalChoice) : Char :=
  match choice with
  | .approveAll => 'a'
  | .continueWithoutApproval => 'c'
  | .quit => 'q'

/-- `CursorBridge.submitMcpServerApproval` (part_002 lines 167-186): a
no-op returning false when no process is live or no approval is pending;
otherwise writes the single choice character to stdin and clears the
pending flag.  (The stdin write is modelled as an infallible append; the
code's catch branch for a failed write is unreachable in this model.) -/
def submitMcpServerApproval (choice : McpServerApprovalChoice)
    (st : BridgeState) : BridgeState × Bool :=
  if st.process.isNone || !st.mcpApprovalPending then (st, false)
  else
    ({ st with
        stdinWrites := st.stdinWrites ++ [approvalKey choice]
        mcpApprovalPending := false },
      true)

theorem ingestMcpProbe_latched (tryParse : List Char → Option McpServerApprovalRequest)
    (text : List Char) (st : BridgeState) (h : st.mcpApprovalEmitted = true) :
    ingestMcpProbe tryParse text st = (st, []) := by
  simp [ingestMcpProbe, h]

theorem ingestAll_latched (tryParse : List Char → Option McpServerApprovalRequest)
    (ts : List (List Char)) :
    ∀ st : BridgeState, st.mcpApprovalEmitted = true →
      (ingestAll tryParse ts st).2 = [] := by
  induction ts with
  | nil => intro st _; rfl
  | cons t ts ih =>
    intro st h
    simp only [ingestAll, ingestMcpProbe_latched tryParse t st h]
    simpa using ih st h

theorem ingestMcpProbe_cases (tryParse : List Char → Option McpServerApprovalRequest)
    (t : List Char) (st : BridgeState) (he : st.mcpApprovalEmitted = false) :
    ((ingestMcpProbe tryParse t st).2 = [] ∧
      (ingestMcpProbe tryParse t st).1.mcpApprovalEmitted = false) ∨
    ((ingestMcpProbe tryParse t st).2.length = 1 ∧
      (ingestMcpProbe tryParse t st).1.mcpApprovalEmitted = true) := by
  rcases hp : tryParse
      (if (st.mcpProbe ++ t).length > 50000 then
        (st.mcpProbe ++ t).drop ((st.mcpProbe ++ t).length - 50000)
      else st.mcpProbe ++ t) with _ | req
  all_goals simp only [List.length_append, gt_iff_lt] at hp
  · left
    constructor <;> simp [ingestMcpProbe, he, hp]
  · right
    constructor <;> simp [ingestMcpProbe, he, hp]

theorem ingestAll_emission_bound (tryParse : List Char → Option McpServerApprovalRequest)
    (texts : List (List Char)) :
    ∀ st : BridgeState, st.mcpApprovalEmitted = false →
      (ingestAll tryParse texts st).2.length ≤ 1 := by
  induction texts with
  | nil => intro st _; simp [ingestAll]
  | cons t ts ih =>
    intro st he
    rcases ingestMcpProbe_cases tryParse t st he with ⟨h1, h2⟩ | ⟨h1, h2⟩
    · have hrec := ih (ingestMcpProbe tryParse t st).1 h2
      simp only [ingestAll, List.length_append, h1, List.length_nil]
      omega
    · have hrest := ingestAll_latched tryParse ts (ingestMcpProbe tryParse t st).1 h2
      simp only [ingestAll, List.length_append, hrest, h1, List.length_nil]
      omega

/-- C5: within one invocation the approval request is emitted at most once
no matter how the detector fires over later diagnostic chunks (the latch
stops further scanning); after one successful reply, every further reply
returns false and writes nothing more to stdin; and replying with no live
process returns false and writes nothing. -/
theorem mcp_approval_once (tryParse : List Char → Option McpServerApprovalRequest)
    (texts : List (List Char)) (st : BridgeState) (choice choice2 : McpServerApprovalChoice)
    (hfresh : st.mcpApprovalEmitted = false) :
    ((ingestAll tryParse texts st).2.length ≤ 1) ∧
    (st.process.isSome = true → st.mcpApprovalPending = true →
      (submitMcpServerApproval choice st).2 = true ∧
      (submitMcpServerApproval choice st).1.stdinWrites =
        st.stdinWrites ++ [approvalKey choice] ∧
      submitMcpServerApproval choice2 (submitMcpServerApproval choice st).1 =
        ((submitMcpServerApproval choice st).1, false)) ∧
    (st.process = Option.none →
      submitMcpServerApproval choice st = (st, false)) := by
  refine ⟨?_, ?_, ?_⟩
  · exact ingestAll_emission_bound tryParse texts st hfresh
  · intro hproc hpend
    have hcond : (st.process.isNone || !st.mcpApprovalPending) = false := by
      simp [Option.isNone, hpend]
      cases hp : st.process with
      | none => rw [hp] at hproc; simp at hproc
      | some v => rfl
    refine ⟨?_, ?_, ?_⟩
    · simp [submitMcpServerApproval, hcond]
    · simp [submitMcpServerApproval, hcond]
    · simp [submitMcpServerApproval, hcond]
  · intro hnone
    simp [submitMcpServerApproval, hnone]

/-- A detector for the C5 witness that fires whenever the probe buffer has
at least four characters. -/
def sampleDetector (l : List Char) : Option McpServerApprovalRequest :=
  if 4 ≤ l.length then some ⟨[⟨"figma", Option.none⟩], "MCP Server Approval Required"⟩
  else Option.none

/-- A bridge state mid-invocation: live process, approval pending. -/
def samplePendingState : BridgeState :=
  ⟨some 3, [], Option.none, ['a', 'b'], true, false, []⟩

/-- Witness for C5: two chunks that both trip the detector yield exactly
one emission; a first reply succeeds and writes the key, a second reply is
refused with no further write; replying with no live process is refused. -/
theorem mcp_approval_once_witness :
    samplePendingState.mcpApprovalEmitted = false ∧
    (ingestAll sampleDetector [['x', 'y', 'z'], ['x', 'y', 'z']] samplePendingState).2.length ≤ 1 ∧
    (submitMcpServerApproval McpServerApprovalChoice.approveAll samplePendingState).2 = true ∧
    submitMcpServerApproval McpServerApprovalChoice.quit
        (submitMcpServerApproval McpServerApprovalChoice.approveAll samplePendingState).1 =
      ((submitMcpServerApproval McpServerApprovalChoice.approveAll samplePendingState).1,
        false) :=
  have h := mcp_approval_once sampleDetector [['x', 'y', 'z'], ['x', 'y', 'z']]
    samplePendingState McpServerApprovalChoice.approveAll McpServerApprovalChoice.quit
    (by decide)
  ⟨by decide, h.1, (h.2.1 (by decide) (by decide)).1, (h.2.1 (by decide) (by decide)).2.2⟩

/-! ## CursorBridge.send (part_002 lines 64-124)

`send` is modelled as a pure function over `BridgeState` whose effectful
collaborators — the environment credential, the login probe's exec result
and the OS spawn call — are parameters.  Besides the successor state it
returns the events emitted, the spawn candidates attempted, the argument
vector handed to the spawned process (when one was attempted), and the
error the JavaScript promise would reject with, if any: `thrown = some e`
means `send` threw `e` past its public boundary. -/

/-- JavaScript truthiness of a nullable string. -/
def jsTruthy (s : Option String) : Bool :=
  match s with
  | some v => decide (v ≠ "")
  | Option.none => false

/-- `CursorBridge.buildPrompt` (part_002 lines 279-283): prepend the
trimmed custom instructions and a blank line when they are non-empty. -/
def buildPrompt (settings : CursorAgentSettings) (prompt : String) : String :=
  let instructions := jsTrim settings.customInstructions
  if instructions = "" then prompt
  else instructions ++ "\n\n" ++ prompt

/-- The argument vector composed by `send` (part_002 lines 93-111). -/
def sendArgs (settings : CursorAgentSettings) (modelOpt : Option String)
    (prompt : String) (resume : Option String) (authArgs : List String) :
    List String :=
  let args1 := ["-p", buildPrompt settings prompt,
    "--output-format", "stream-json"] ++ authArgs
  let args2 :=
    if jsTruthy resume then args1 ++ ["--resume=" ++ resume.getD ""]
    else
      let model := if jsTruthy modelOpt then modelOpt.getD ""
        else settings.defaultModel
      if model ≠ "" then args1 ++ ["--model", model] else args1
  if settings.permissionMode = "force" then args2 ++ ["--force"] else args2

/-- Everything observable about one `send` call. -/
structure SendResult where
  state : BridgeState
  emits : List BridgeEmit
  spawnAttempts : List String
  args : Option (List String)
  thrown : Option JsError
  deriving DecidableEq, Repr

/-- `CursorBridge.send` (part_002 lines 64-124).  `resumeOverride = some r`
models a caller passing `{ resumeSessionId: r }` (where `r = none` is
JavaScript `null`); `Option.none` models omitting the option.  Note the
`await spawnCursorAgentPiped(...)` has no surrounding try/catch in the
source, so a spawn failure is recorded as `thrown`. -/
def send (spawnF : String → Except JsError Nat) (platform : String)
    (envKey : Option String) (probeRes : CursorAgentExecResult)
    (settings : CursorAgentSettings) (modelOpt : Option String)
    (prompt : String) (resumeOverride : Option (Option String))
    (st : BridgeState) : SendResult :=
  if st.process.isSome then
    ⟨st, [.error "cursor-agent is already running"], [], Option.none, Option.none⟩
  else
    let authResult := (getAuthConfig envKey settings probeRes).1
    if !authResult.isAuthenticated then
      ⟨st,
        [.error "Not authenticated. Please set API key in settings or login via cursor-agent."],
        [], Option.none, Option.none⟩
    else
      let resumeSessionId :=
        match resumeOverride with
        | some r => r
        | Option.none => st.sessionId
      let args := sendArgs settings modelOpt prompt resumeSessionId authResult.args
      let spawn := spawnCursorAgentPiped spawnF platform settings
      match spawn.1 with
      | .error e => ⟨st, [], spawn.2, some args, some e⟩
      | .ok handle =>
        ⟨{ st with
            process := some handle
            buffer := []
            mcpProbe := []
            mcpApprovalPending := false
            mcpApprovalEmitted := false },
          [.ready], spawn.2, some args, Option.none⟩

/-- C3: with a live process handle, `send` emits an error event and returns
without attempting any spawn; the state — in particular the single live
handle — is unchanged and nothing is queued. -/
theorem send_rejected_while_running (spawnF : String → Except JsError Nat)
    (platform : String) (envKey : Option String) (probeRes : CursorAgentExecResult)
    (settings : CursorAgentSettings) (modelOpt : Option String) (prompt : String)
    (resumeOverride : Option (Option String)) (st : BridgeState) (hdl : Nat)
    (hproc : st.process = some hdl) :
    send spawnF platform envKey probeRes settings modelOpt prompt resumeOverride st =
      ⟨st, [.error "cursor-agent is already running"], [], Option.none, Option.none⟩ := by
  simp [send, hproc]

/-- A bridge state with no live process. -/
def freshBridgeState : BridgeState :=
  ⟨Option.none, [], Option.none, [], false, false, []⟩

/-- A bridge state with a live process handle. -/
def runningBridgeState : BridgeState :=
  { freshBridgeState with process := some 7 }

/-- A spawn function whose every attempt fails with a non-ENOENT error. -/
def failSpawnF : String → Except JsError Nat := fun _ =>
  .error ⟨"spawn EACCES", some "EACCES"⟩

/-- Witness for C3: a concrete running bridge refuses a second send. -/
theorem send_rejected_while_running_witness :
    runningBridgeState.process = some 7 ∧
    send failSpawnF "linux" Option.none sampleProbeFail sampleSettings
        Option.none "hello" Option.none runningBridgeState =
      ⟨runningBridgeState, [.error "cursor-agent is already running"], [],
        Option.none, Option.none⟩ :=
  ⟨rfl, send_rejected_while_running failSpawnF "linux" Option.none sampleProbeFail
    sampleSettings Option.none "hello" Option.none runningBridgeState 7 rfl⟩

/-- C2 counterexample: `send` from an idle, authenticated state whose spawn
fails with a non-ENOENT error rejects (the error propagates past the
public boundary) and emits no `error` event, because the
`await spawnCursorAgentPiped(...)` in `send` has no try/catch. -/
theorem send_spawn_failure_throws_counterexample :
    (send failSpawnF "linux" (some "key") sampleProbeFail sampleSettings
        Option.none "hello" Option.none freshBridgeState).thrown =
      some ⟨"spawn EACCES", some "EACCES"⟩ ∧
    (send failSpawnF "linux" (some "key") sampleProbeFail sampleSettings
        Option.none "hello" Option.none freshBridgeState).emits = [] :=
  ⟨rfl, rfl⟩

/-- C2 amended: `send` surfaces its pre-spawn failures — a live invocation
and a failed auth resolution — as `error` events and returns normally, but
a failure of `spawnCursorAgentPiped` propagates out of `send` as a
rejection of its promise, with no `error` event emitted by `send` itself
(the process-level `error`/`close` handlers are only installed after a
successful spawn). -/
theorem send_failure_surfacing (spawnF : String → Except JsError Nat)
    (platform : String) (envKey : Option String) (probeRes : CursorAgentExecResult)
    (settings : CursorAgentSettings) (modelOpt : Option String) (prompt : String)
    (resumeOverride : Option (Option String)) (st : BridgeState) :
    (st.process = Option.none →
      (getAuthConfig envKey settings probeRes).1.isAuthenticated = false →
      send spawnF platform envKey probeRes settings modelOpt prompt resumeOverride st =
        ⟨st,
          [.error "Not authenticated. Please set API key in settings or login via cursor-agent."],
          [], Option.none, Option.none⟩) ∧
    (∀ e : JsError,
      st.process = Option.none →
      (getAuthConfig envKey settings probeRes).1.isAuthenticated = true →
      (spawnCursorAgentPiped spawnF platform settings).1 = .error e →
      (send spawnF platform envKey probeRes settings modelOpt prompt resumeOverride st).thrown =
          some e ∧
        (send spawnF platform envKey probeRes settings modelOpt prompt resumeOverride st).emits =
          []) := by
  constructor
  · intro hproc hauth
    simp [send, hproc, hauth]
  · intro e hproc hauth hspawn
    constructor <;> simp [send, hproc, hauth, hspawn]

/-- Witness for C2 (amended): the unauthenticated path emits an error event
without throwing, and the spawn-failure path rejects with the spawn error. -/
theorem send_failure_surfacing_witness :
    send failSpawnF "linux" Option.none sampleProbeFail sampleSettings
        Option.none "hello" Option.none freshBridgeState =
      ⟨freshBridgeState,
        [.error "Not authenticated. Please set API key in settings or login via cursor-agent."],
        [], Option.none, Option.none⟩ ∧
    (send failSpawnF "linux" (some "key") sampleProbeFail sampleSettings
        Option.none "hello" Option.none freshBridgeState).thrown =
      some ⟨"spawn EACCES", some "EACCES"⟩ :=
  ⟨(send_failure_surfacing failSpawnF "linux" Option.none sampleProbeFail
      sampleSettings Option.none "hello" Option.none freshBridgeState).1
      rfl (by decide),
    ((send_failure_surfacing failSpawnF "linux" (some "key") sampleProbeFail
        sampleSettings Option.none "hello" Option.none freshBridgeState).2
      ⟨"spawn EACCES", some "EACCES"⟩ rfl (by decide) rfl).1⟩

/-- C10: `send` hands the spawned process `buildPrompt`'s output, not the
raw prompt: when the trimmed custom-instructions setting is non-empty the
text at the prompt position (index 1, after the `-p` flag) is the trimmed
instructions, a blank line, then the prompt; otherwise it is the prompt
unchanged. -/
theorem send_prompt_composition (spawnF : String → Except JsError Nat)
    (platform : String) (envKey : Option String) (probeRes : CursorAgentExecResult)
    (settings : CursorAgentSettings) (modelOpt : Option String) (prompt : String)
    (resumeOverride : Option (Option String)) (st : BridgeState)
    (hproc : st.process = Option.none)
    (hauth : (getAuthConfig envKey settings probeRes).1.isAuthenticated = true) :
    (send spawnF platform envKey probeRes settings modelOpt prompt resumeOverride st).args =
      some (sendArgs settings modelOpt prompt
        (match resumeOverride with
          | some r => r
          | Option.none => st.sessionId)
        (getAuthConfig envKey settings probeRes).1.args) ∧
    (∀ (resume : Option String) (authArgs : List String),
      (jsTrim settings.customInstructions ≠ "" →
        (sendArgs settings modelOpt prompt resume authArgs)[1]? =
          some (jsTrim settings.customInstructions ++ "\n\n" ++ prompt)) ∧
      (jsTrim settings.customInstructions = "" →
        (sendArgs settings modelOpt prompt resume authArgs)[1]? = some prompt)) := by
  constructor
  · cases hsp : (spawnCursorAgentPiped spawnF platform settings).1 with
    | error e => simp [send, hproc, hauth, hsp]
    | ok hdl => simp [send, hproc, hauth, hsp]
  · intro resume authArgs
    constructor
    · intro hci
      have hbp : buildPrompt settings prompt =
          jsTrim settings.customInstructions ++ "\n\n" ++ prompt := by
        simp [buildPrompt, hci]
      simp only [sendArgs, hbp, List.cons_append, List.nil_append]
      split_ifs <;> rfl
    · intro hci
      have hbp : buildPrompt settings prompt = prompt := by
        simp [buildPrompt, hci]
      simp only [sendArgs, hbp, List.cons_append, List.nil_append]
      split_ifs <;> rfl

/-- Settings carrying custom instructions surrounded by whitespace. -/
def sampleSettingsWithInstructions : CursorAgentSettings :=
  { sampleSettings with customInstructions := "  Be brief.  " }

/-- Witness for C10: with instructions `"  Be brief.  "` the prompt slot of
the argument vector is `"Be brief.\n\nhello"`; with empty instructions it
is the prompt itself. -/
theorem send_prompt_composition_witness :
    (send failSpawnF "linux" (some "key") sampleProbeFail
        sampleSettingsWithInstructions Option.none "hello" Option.none
        freshBridgeState).args =
      some (sendArgs sampleSettingsWithInstructions Option.none "hello"
        Option.none []) ∧
    (sendArgs sampleSettingsWithInstructions Option.none "hello" Option.none [])[1]? =
      some "Be brief.\n\nhello" ∧
    (sendArgs sampleSettings Option.none "hello" Option.none [])[1]? = some "hello" :=
  have h1 := send_prompt_composition failSpawnF "linux" (some "key") sampleProbeFail
    sampleSettingsWithInstructions Option.none "hello" Option.none freshBridgeState
    rfl (by decide)
  have h2 := send_prompt_composition failSpawnF "linux" (some "key") sampleProbeFail
    sampleSettings Option.none "hello" Option.none freshBridgeState
    rfl (by decide)
  ⟨h1.1, by
      have := (h1.2 Option.none []).1 (by decide)
      simpa using this,
    (h2.2 Option.none []).2 (by decide)⟩

/-! ## Session Ledger and the pending-message handoff

`SessionManager` (the ledger) keeps per-session message history in
insertion-ordered maps, modelled as association lists.  `Chat.tsx` keeps
locally created messages in `pendingMessagesRef` until the `init` event
confirms the remote session; its `onInit` handler then registers the
session and flushes the pending queue through `addMessage`. -/

/-- `ChatMessage` (src/types). -/
structure ChatMessage where
  id : String
  role : String
  content : String
  timestamp : Nat
  deriving DecidableEq, Repr

/-- `ConversationSummary` (cli section of the session manager). -/
structure ConversationSummary where
  sessionId : String
  timestamp : Nat
  preview : String
  messageCount : Nat
  deriving DecidableEq, Repr

/-- `SessionInfo` (src/types). -/
structure SessionInfo where
  id : String
  model : String
  startTime : Nat
  deriving DecidableEq, Repr

/-- JavaScript `Map.get`. -/
def mapGet {α : Type} (k : String) (m : List (String × α)) : Option α :=
  (m.find? (fun p => decide (p.1 = k))).map (fun p => p.2)

/-- JavaScript `Map.set`: update in place, or append preserving insertion
order. -/
def mapSet {α : Type} (k : String) (v : α) :
    List (String × α) → List (String × α)
  | [] => [(k, v)]
  | (k', v') :: rest =>
    if k' = k then (k, v) :: rest else (k', v') :: mapSet k v rest

/-- JavaScript `s.slice(0, n)`. -/
def jsSlice (s : String) (n : Nat) : String := ⟨s.data.take n⟩

/-- The `SessionManager`'s private fields. -/
structure SessionManagerState where
  currentSession : Option SessionInfo
  conversations : List (String × ConversationSummary)
  messageHistory : List (String × List ChatMessage)
  deriving DecidableEq, Repr

/-- `SessionManager.setCurrentSession` (`Date.now()` passed as `now`). -/
def setCurrentSession (now : Nat) (sessionId model : String)
    (s : SessionManagerState) : SessionManagerState :=
  let s1 := { s with currentSession := some ⟨sessionId, model, now⟩ }
  let s2 :=
    if (mapGet sessionId s1.conversations).isSome then s1
    else { s1 with
      conversations := mapSet sessionId ⟨sessionId, now, "", 0⟩ s1.conversations }
  if (mapGet sessionId s2.messageHistory).isSome then s2
  else { s2 with messageHistory := mapSet sessionId [] s2.messageHistory }

/-- `SessionManager.addMessage`: append to the current session's history
and refresh its conversation summary; a no-op with no current session. -/
def addMessage (now : Nat) (message : ChatMessage)
    (s : SessionManagerState) : SessionManagerState :=
  match s.currentSession with
  | Option.none => s
  | some cur =>
    let sessionId := cur.id
    let messages := (mapGet sessionId s.messageHistory).getD [] ++ [message]
    let s1 := { s with messageHistory := mapSet sessionId messages s.messageHistory }
    match mapGet sessionId s1.conversations with
    | Option.none => s1
    | some conv =>
      { s1 with
        conversations := mapSet sessionId
          { conv with
              messageCount := messages.length
              preview := if message.role = "user" then jsSlice message.content 100
                else conv.preview
              timestamp := now }
          s1.conversations }

/-- The `Chat` component state relevant to the handoff: the ledger plus
`pendingMessagesRef`. -/
structure ChatState where
  sm : SessionManagerState
  pending : List ChatMessage
  deriving DecidableEq, Repr

/-- `onInit` (Chat.tsx lines 145-156): register the confirmed session, then
append every pending message via `addMessage` and clear the queue. -/
def onInit (now : Nat) (sessionId selectedModel : String)
    (st : ChatState) : ChatState :=
  let sm1 := setCurrentSession now sessionId selectedModel st.sm
  let sm2 := st.pending.foldl (fun acc m => addMessage now m acc) sm1
  ⟨sm2, []⟩

theorem mapGet_mapSet_same {α : Type} (k : String) (v : α)
    (m : List (String × α)) : mapGet k (mapSet k v m) = some v := by
  induction m with
  | nil => simp [mapGet, mapSet, List.find?]
  | cons p rest ih =>
    rcases p with ⟨k', v'⟩
    by_cases h : k' = k
    · simp [mapGet, mapSet, h, List.find?]
    · simp only [mapSet, h, if_false]
      simpa [mapGet, List.find?, h] using ih

theorem setCurrentSession_spec (now : Nat) (sessionId model : String)
    (s : SessionManagerState) :
    (setCurrentSession now sessionId model s).currentSession =
      some ⟨sessionId, model, now⟩ ∧
    mapGet sessionId (setCurrentSession now sessionId model s).messageHistory =
      some ((mapGet sessionId s.messageHistory).getD []) := by
  simp only [setCurrentSession]
  by_cases h1 : (mapGet sessionId s.conversations).isSome
  · by_cases h2 : (mapGet sessionId s.messageHistory).isSome
    · rcases Option.isSome_iff_exists.mp h2 with ⟨l, hl⟩
      simp [h1, h2, hl]
    · have h2n : mapGet sessionId s.messageHistory = Option.none :=
        Option.not_isSome_iff_eq_none.mp h2
      simp [h1, h2, h2n, mapGet_mapSet_same]
  · by_cases h2 : (mapGet sessionId s.messageHistory).isSome
    · rcases Option.isSome_iff_exists.mp h2 with ⟨l, hl⟩
      simp [h1, h2, hl]
    · have h2n : mapGet sessionId s.messageHistory = Option.none :=
        Option.not_isSome_iff_eq_none.mp h2
      simp [h1, h2, h2n, mapGet_mapSet_same]

theorem addMessage_spec (now : Nat) (m : ChatMessage) (s : SessionManagerState)
    (cur : SessionInfo) (hcur : s.currentSession = some cur) :
    (addMessage now m s).currentSession = some cur ∧
    mapGet cur.id (addMessage now m s).messageHistory =
      some ((mapGet cur.id s.messageHistory).getD [] ++ [m]) := by
  simp only [addMessage, hcur]
  rcases hconv : mapGet cur.id s.conversations with _ | conv
  · simp [hconv, hcur, mapGet_mapSet_same]
  · simp [hconv, hcur, mapGet_mapSet_same]

theorem foldl_addMessage (now : Nat) (pending : List ChatMessage) :
    ∀ (s : SessionManagerState) (cur : SessionInfo) (l : List ChatMessage),
      s.currentSession = some cur →
      mapGet cur.id s.messageHistory = some l →
      (pending.foldl (fun acc m => addMessage now m acc) s).currentSession =
          some cur ∧
        mapGet cur.id
            (pending.foldl (fun acc m => addMessage now m acc) s).messageHistory =
          some (l ++ pending) := by
  induction pending with
  | nil => intro s cur l hcur hl; simpa using ⟨hcur, hl⟩
  | cons m ms ih =>
    intro s cur l hcur hl
    have hstep := addMessage_spec now m s cur hcur
    rw [hl] at hstep
    have := ih (addMessage now m s) cur (l ++ [m]) hstep.1 (by simpa using hstep.2)
    simpa [List.append_assoc] using this

/-- C4: when `Init` fires, `onInit` appends every pending message to the
confirmed session's message history after whatever that history already
held, in original order and exactly once each, and clears the pending
queue. -/
theorem pending_flushed_on_init (now : Nat) (sessionId model : String)
    (st : ChatState) :
    (onInit now sessionId model st).pending = [] ∧
    mapGet sessionId (onInit now sessionId model st).sm.messageHistory =
      some ((mapGet sessionId st.sm.messageHistory).getD [] ++ st.pending) ∧
    (onInit now sessionId model st).sm.currentSession =
      some ⟨sessionId, model, now⟩ := by
  have hset := setCurrentSession_spec now sessionId model st.sm
  have hfold := foldl_addMessage now st.pending
    (setCurrentSession now sessionId model st.sm) ⟨sessionId, model, now⟩
    ((mapGet sessionId st.sm.messageHistory).getD []) hset.1 hset.2
  exact ⟨rfl, hfold.2, hfold.1⟩

end CursorAgent
